import Mathlib

/-!
Shallow embedding of the Progressor BLE peripheral example
(`examples/ble/bas_peripheral/src/datapoint.rs` and `main.rs`).

Conventions:
* Bytes and machine integers are `Nat`; where the Rust type system truncates
  (e.g. `as u8`, `u32`), the embedding inserts an explicit `% 256` / `% 2^32`.
* Rust's `f32` values appear here only through their 4-byte little-endian bit
  representation (`to_le_bytes` / `bytes_of` are bit-level transmutes in Rust),
  so an `f32` field is embedded as the `Nat` holding its 32-bit pattern.
  The synthetic weight counter of `custom_task` is embedded over `ℚ`: every
  value it can reach (multiples of 0.5 up to 50.5) is exactly representable in
  `f32` and `+ 0.5`, the comparison with `50.0` and the reset are all exact,
  so the rational model is bit-faithful to the `f32` code.
* Code that can panic (out-of-bounds slice writes) returns `Option`, with
  `none` for the panic.
* Fixed-size Rust buffers `[u8; N]` are embedded as `List Nat` of length `N`;
  `buf[off..off+k].copy_from_slice(src)` with `k = src.len()` becomes
  `copyFromSlice buf off src`.
-/

/-- Models `buf[off .. off + src.len()].copy_from_slice(src)` on a list buffer:
the result keeps `dst` outside the written window and holds `src` inside it.
Faithful whenever `off + src.length ≤ dst.length` (the non-panicking case,
which each use site below either guarantees or guards with `Option`). -/
def copyFromSlice (dst : List Nat) (off : Nat) (src : List Nat) : List Nat :=
  dst.take off ++ src ++ dst.drop (off + src.length)

/-- `DATA_PAYLOAD_SIZE` from `datapoint.rs`. -/
def DATA_PAYLOAD_SIZE : Nat := 12

/-- Little-endian bytes of a `u32` (`u32::to_le_bytes`); also used for the
4 bytes of an `f32` bit pattern (`f32::to_le_bytes` / `bytemuck::bytes_of`). -/
def u32ToLeBytes (n : Nat) : List Nat :=
  [n % 256, n / 256 % 256, n / 65536 % 256, n / 16777216 % 256]

/-- Little-endian decoding of 4 bytes back to a `u32` value. -/
def leBytesToU32 : List Nat → Nat
  | [a, b, c, d] => a + 256 * b + 65536 * c + 16777216 * d
  | _ => 0

/-- `DataOpcode` from `datapoint.rs`. The `f32` of `Weight` is carried as its
32-bit pattern (see module comment); `AppVersion` carries the byte string. -/
inductive DataOpcode where
  | BatteryVoltage (voltage : Nat)
  | Weight (weightBits : Nat) (timestamp : Nat)
  | LowPowerWarning
  | AppVersion (version : List Nat)
  | ProgressorId (id : Nat)
  deriving DecidableEq

/-- `DataOpcode::opcode` from `datapoint.rs`. -/
def DataOpcode.opcode : DataOpcode → Nat
  | .BatteryVoltage _ | .AppVersion _ | .ProgressorId _ => 0x00
  | .Weight _ _ => 0x01
  | .LowPowerWarning => 0x04

/-- `DataOpcode::length` from `datapoint.rs`; `version.len() as u8` truncates. -/
def DataOpcode.length : DataOpcode → Nat
  | .BatteryVoltage _ => 4
  | .Weight _ _ => 8
  | .ProgressorId _ => 1
  | .LowPowerWarning => 0
  | .AppVersion version => version.length % 256

/-- `DataOpcode::value` from `datapoint.rs`: a 12-byte zero-initialised buffer
with the variant's payload copied at the front.  For `AppVersion` the source
writes `value[0..version.len()]`, which panics (hence `none`) when the version
string is longer than the 12-byte buffer; every other arm writes a fixed
in-bounds window. `id.to_le_bytes()` of a `u8` is the single byte `id`. -/
def DataOpcode.value : DataOpcode → Option (List Nat)
  | .BatteryVoltage voltage =>
      some (copyFromSlice (List.replicate DATA_PAYLOAD_SIZE 0) 0 (u32ToLeBytes voltage))
  | .Weight weightBits timestamp =>
      some (copyFromSlice
        (copyFromSlice (List.replicate DATA_PAYLOAD_SIZE 0) 0 (u32ToLeBytes weightBits))
        4 (u32ToLeBytes timestamp))
  | .LowPowerWarning => some (List.replicate DATA_PAYLOAD_SIZE 0)
  | .ProgressorId id =>
      some (copyFromSlice (List.replicate DATA_PAYLOAD_SIZE 0) 0 [id % 256])
  | .AppVersion version =>
      if version.length ≤ DATA_PAYLOAD_SIZE then
        some (copyFromSlice (List.replicate DATA_PAYLOAD_SIZE 0) 0 version)
      else none

/-- `DataOpcode::to_bytes` from `datapoint.rs`: a 14-byte buffer with the
opcode at offset 0, the length at offset 1 and the 12 value bytes from
offset 2 (`none` exactly when computing the value panics). -/
def DataOpcode.to_bytes (op : DataOpcode) : Option (List Nat) :=
  (op.value).map (fun v =>
    copyFromSlice (((List.replicate (DATA_PAYLOAD_SIZE + 2) 0).set 0 op.opcode).set 1 op.length)
      2 v)

/-- `ControlOpcode` from `datapoint.rs`. -/
inductive ControlOpcode where
  | Tare
  | StartMeasurement
  | StopMeasurement
  | StartPeakRfdMeasurement
  | StartPeakRfdMeasurementSeries
  | GetAppVersion
  | GetErrorInfo
  | ClearErrorInfo
  | Shutdown
  | SampleBattery
  | GetProgressorID
  | Unknown (raw : Nat)
  | Invalid
  deriving DecidableEq

/-- `ControlOpcode::from_bytes` from `datapoint.rs`: `Invalid` on an empty
write, otherwise a match on the first byte with an `Unknown` fallback. -/
def ControlOpcode.from_bytes (data : List Nat) : ControlOpcode :=
  match data with
  | [] => .Invalid
  | b :: _ =>
    match b with
    | 0x00 => .Tare
    | 0x65 => .StartMeasurement
    | 0x66 => .StopMeasurement
    | 0x03 => .StartPeakRfdMeasurement
    | 0x04 => .StartPeakRfdMeasurementSeries
    | 0x05 => .GetAppVersion
    | 0x06 => .GetErrorInfo
    | 0x07 => .ClearErrorInfo
    | 0x08 => .Shutdown
    | 0x09 => .SampleBattery
    | 0x70 => .GetProgressorID
    | other => .Unknown other

/-- `DataPoint` from `datapoint.rs` (`#[repr(C, packed)]` struct); the `value`
field is `[u8; 12]` in the source, so every constructor below yields a
12-element list. -/
structure DataPoint where
  opcode : Nat
  length : Nat
  value : List Nat
  deriving DecidableEq

/-- `DataPoint::from_parts` from `datapoint.rs`: copies as many payload bytes
as fit (at most 12) into a zeroed value buffer; never panics.  The `Pod`
payload is embedded as its byte string `src_bytes`. -/
def DataPoint.from_parts (opcode length : Nat) (src_bytes : List Nat) : DataPoint :=
  let len := min src_bytes.length DATA_PAYLOAD_SIZE
  { opcode := opcode, length := length,
    value := copyFromSlice (List.replicate DATA_PAYLOAD_SIZE 0) 0 (src_bytes.take len) }

/-- `DataPoint::to_bytes` from `datapoint.rs`: same 14-byte layout as
`DataOpcode::to_bytes`, built from the struct fields. -/
def DataPoint.to_bytes (dp : DataPoint) : List Nat :=
  copyFromSlice (((List.replicate (DATA_PAYLOAD_SIZE + 2) 0).set 0 dp.opcode).set 1 dp.length)
    2 dp.value

/-- `impl From<DataOpcode> for DataPoint` from `datapoint.rs`: field-by-field
construction from the opcode's derived opcode/length/value (`none` exactly
when computing the value panics). -/
def DataPoint.fromOpcode (op : DataOpcode) : Option DataPoint :=
  (op.value).map (fun v => { opcode := op.opcode, length := op.length, value := v })

/-!  Embedding of the `main.rs` connection logic. -/

/-- The Control-Point write arm of `gatt_events_task` in `main.rs`: when the
written payload is the single byte `112` (`0x70`), build the 3-byte TLV
response `[0, 1, 42]`, copy it into the 10-byte characteristic-sized buffer
and notify it; any other payload produces no notification. -/
def handleControlWrite (data : List Nat) : Option (List Nat) :=
  if data.length = 1 ∧ data.headD 0 = 112 then
    some (copyFromSlice (List.replicate 10 0) 0 [0, 1, 42])
  else
    none

/-- GATT events visible to `gatt_events_task` (the `GattEvent` match). -/
inductive GattEventM where
  | WriteEvt (handle : Nat) (data : List Nat)
  | ReadEvt (handle : Nat)
  | OtherGatt
  deriving DecidableEq

/-- Connection events (the `GattConnectionEvent` match in `gatt_events_task`). -/
inductive ConnEventM where
  | Disconnected (reason : Nat)
  | Gatt (event : GattEventM)
  | OtherEvent
  deriving DecidableEq

/-- Observable outcome of one iteration of the `gatt_events_task` loop:
the Data-Point notification it sends, if any, and the disconnect reason it
breaks the loop with, if any. -/
structure StepResult where
  notification : Option (List Nat)
  loopBreak : Option Nat
  deriving DecidableEq

/-- One iteration of the event loop in `gatt_events_task` (`main.rs`):
a `Disconnected` event breaks the loop with its reason; a GATT write to the
Control Point handle runs `handleControlWrite`; a GATT read of the Data Point
is logged only; everything else is ignored.  The ATT-level `accept`/`send`
reply carries no protocol data and is not part of the observable result. -/
def gattEventStep (controlHandle dataHandle : Nat) : ConnEventM → StepResult
  | .Disconnected reason => { notification := none, loopBreak := some reason }
  | .Gatt (.WriteEvt h data) =>
      if h = controlHandle then
        { notification := handleControlWrite data, loopBreak := none }
      else
        { notification := none, loopBreak := none }
  | .Gatt (.ReadEvt h) =>
      if h = dataHandle then
        { notification := none, loopBreak := none }
      else
        { notification := none, loopBreak := none }
  | .Gatt .OtherGatt => { notification := none, loopBreak := none }
  | .OtherEvent => { notification := none, loopBreak := none }

/-- The notification packet built by `custom_task` in `main.rs`: a 10-byte
buffer `[0x01][0x08][weight f32 LE][timestamp u32 LE]` (the `f32` appears via
its 4 `bytemuck::bytes_of` bytes, i.e. the LE bytes of its bit pattern). -/
def telemetryPacket (weightBits timestampUs : Nat) : List Nat :=
  copyFromSlice
    (copyFromSlice (((List.replicate 10 0).set 0 0x01).set 1 0x08) 2 (u32ToLeBytes weightBits))
    6 (u32ToLeBytes timestampUs)

/-- One tick of the synthetic weight counter in `custom_task` (`main.rs`):
`weight += 0.5; if weight > 50.0 { weight = 0.0; }` — exact over `ℚ`
(see module comment on `f32` faithfulness). -/
def weightStep (weight : ℚ) : ℚ :=
  let w := weight + 1 / 2
  if w > 50 then 0 else w

/-- The weight value emitted on the `n`-th notification of `custom_task`
(`n ≥ 1`; `weightAt 0 = 0` is the initial `let mut weight: f32 = 0.0`).
The step runs before the packet is built, so tick `n` emits `weightAt n`. -/
def weightAt : Nat → ℚ
  | 0 => 0
  | n + 1 => weightStep (weightAt n)

/-- Outcome of one `advertise` call in `ble_bas_peripheral_run` (`main.rs`). -/
inductive AdvOutcome where
  | Ok
  | Err
  deriving DecidableEq

/-- Which of the two per-connection tasks (`gatt_events_task`,
`custom_task`) finishes first in the `select(a, b)` race. -/
inductive TaskFirst where
  | EventLoopFirst
  | TelemetryFirst
  deriving DecidableEq

/-- Supervisor states of the loop in `ble_bas_peripheral_run`: `Aborted`
models the `panic!` on an advertising error. -/
inductive SupState where
  | Advertising
  | Aborted
  deriving DecidableEq

/-- One iteration of the supervisor loop in `ble_bas_peripheral_run`
(`main.rs`): on a successful accept it runs `select(a, b)` until either task
finishes and then falls through to the next loop iteration (back to
advertising, with no intervening wait); on an advertising error it panics. -/
def superviseIteration (outcome : AdvOutcome) (first : TaskFirst) : SupState :=
  match outcome with
  | .Ok =>
      match first with
      | .EventLoopFirst => .Advertising
      | .TelemetryFirst => .Advertising
  | .Err => .Aborted

/-- Supervisor state before iteration `n` of the advertising loop, given the
outcome of each `advertise` call and the winner of each per-connection race. -/
def supervisorState (outcomes : Nat → AdvOutcome) (firsts : Nat → TaskFirst) : Nat → SupState
  | 0 => .Advertising
  | n + 1 =>
      match supervisorState outcomes firsts n with
      | .Advertising => superviseIteration (outcomes n) (firsts n)
      | .Aborted => .Aborted

/-!  Helper lemmas about the codec. -/

/-- The value buffer of a `BatteryVoltage` response: 4 LE voltage bytes then
8 zero bytes. -/
theorem DataOpcode.value_batteryVoltage (voltage : Nat) :
    DataOpcode.value (.BatteryVoltage voltage) =
      some (u32ToLeBytes voltage ++ List.replicate 8 0) := by
  simp [DataOpcode.value, copyFromSlice, u32ToLeBytes, DATA_PAYLOAD_SIZE]

/-- The value buffer of a `Weight` response: 4 LE weight-bit bytes, 4 LE
timestamp bytes, then 4 zero bytes. -/
theorem DataOpcode.value_weight (weightBits timestamp : Nat) :
    DataOpcode.value (.Weight weightBits timestamp) =
      some (u32ToLeBytes weightBits ++ u32ToLeBytes timestamp ++ List.replicate 4 0) := by
  simp [DataOpcode.value, copyFromSlice, u32ToLeBytes, DATA_PAYLOAD_SIZE]

/-- The value buffer of a `ProgressorId` response: the id byte then 11 zeros. -/
theorem DataOpcode.value_progressorId (id : Nat) :
    DataOpcode.value (.ProgressorId id) =
      some (id % 256 :: List.replicate 11 0) := by
  simp [DataOpcode.value, copyFromSlice, DATA_PAYLOAD_SIZE]

/-- The value buffer of an in-bounds `AppVersion` response: the version bytes
then zero padding to 12 bytes. -/
theorem DataOpcode.value_appVersion (version : List Nat) (h : version.length ≤ 12) :
    DataOpcode.value (.AppVersion version) =
      some (version ++ List.replicate (12 - version.length) 0) := by
  simp [DataOpcode.value, copyFromSlice, DATA_PAYLOAD_SIZE, h]
  rw [show ([0, 0, 0, 0, 0, 0, 0, 0, 0, 0, 0, 0] : List Nat) = List.replicate 12 0 from rfl,
    List.drop_replicate]

/-- Whenever `DataOpcode::value` does not panic, it yields exactly 12 bytes
(the `[u8; 12]` buffer). -/
theorem DataOpcode.value_length {op : DataOpcode} {v : List Nat} (h : op.value = some v) :
    v.length = 12 := by
  cases op with
  | BatteryVoltage x =>
      rw [DataOpcode.value_batteryVoltage] at h
      simp at h; subst h; simp [u32ToLeBytes]
  | Weight w t =>
      rw [DataOpcode.value_weight] at h
      simp at h; subst h; simp [u32ToLeBytes]
  | LowPowerWarning =>
      simp [DataOpcode.value, DATA_PAYLOAD_SIZE] at h
      subst h; rfl
  | ProgressorId id =>
      rw [DataOpcode.value_progressorId] at h
      simp at h; subst h; simp
  | AppVersion ver =>
      simp [DataOpcode.value, DATA_PAYLOAD_SIZE] at h
      obtain ⟨hle, hv⟩ := h
      subst hv
      simp [copyFromSlice]
      omega

/-- Whenever the value does not panic, the serialized frame is the opcode
byte, the length byte, then the 12 value bytes. -/
theorem DataOpcode.to_bytes_eq_cons {op : DataOpcode} {v : List Nat} (h : op.value = some v) :
    op.to_bytes = some (op.opcode :: op.length :: v) := by
  have hlen := DataOpcode.value_length h
  simp [DataOpcode.to_bytes, h, copyFromSlice, DATA_PAYLOAD_SIZE]
  omega

/-- `DataPoint::to_bytes` on a well-formed 12-byte value is the opcode byte,
the length byte, then the value bytes. -/
theorem DataPoint.to_bytes_cons (opcode length : Nat) (v : List Nat) (h : v.length = 12) :
    DataPoint.to_bytes { opcode := opcode, length := length, value := v } =
      opcode :: length :: v := by
  simp [DataPoint.to_bytes, copyFromSlice, DATA_PAYLOAD_SIZE]
  omega

/-- Bytes of the value buffer past the declared length are zero: dropping the
first `op.length` bytes of the value leaves only zero padding. -/
theorem DataOpcode.value_drop_length {op : DataOpcode} {v : List Nat} (h : op.value = some v) :
    v.drop op.length = List.replicate (12 - op.length) 0 := by
  cases op with
  | BatteryVoltage x =>
      rw [DataOpcode.value_batteryVoltage] at h
      simp at h; subst h
      simp [u32ToLeBytes, DataOpcode.length]
  | Weight w t =>
      rw [DataOpcode.value_weight] at h
      simp at h; subst h
      simp [u32ToLeBytes, DataOpcode.length]
  | LowPowerWarning =>
      simp [DataOpcode.value, DATA_PAYLOAD_SIZE] at h
      subst h; rfl
  | ProgressorId id =>
      rw [DataOpcode.value_progressorId] at h
      simp at h; subst h
      simp [DataOpcode.length]
  | AppVersion ver =>
      simp [DataOpcode.value, DATA_PAYLOAD_SIZE] at h
      obtain ⟨hle, hv⟩ := h
      subst hv
      have hm : ver.length % 256 = ver.length := Nat.mod_eq_of_lt (by omega)
      simp only [DataOpcode.length, hm, copyFromSlice, List.take_nil, List.nil_append,
        List.take_zero, Nat.zero_add]
      rw [List.drop_left ver]
      rw [show ([0, 0, 0, 0, 0, 0, 0, 0, 0, 0, 0, 0] : List Nat) = List.replicate 12 0 from rfl,
        List.drop_replicate]

/-- Little-endian u32 encode/decode round-trip. -/
theorem u32_le_roundtrip (n : Nat) : leBytesToU32 (u32ToLeBytes n) = n % 4294967296 := by
  simp [u32ToLeBytes, leBytesToU32]
  omega

/-!  Helper lemmas about the telemetry weight counter. -/

/-- Closed form of the weight counter while it has not yet wrapped: for the
first 100 ticks the counter is exactly `k * 0.5`. -/
theorem weightAt_closed_form : ∀ k : Nat, k ≤ 100 → weightAt k = (k : ℚ) / 2 := by
  intro k
  induction k with
  | zero => intro _; simp [weightAt]
  | succ n ih =>
      intro h
      have hn : n ≤ 100 := by omega
      rw [weightAt, ih hn, weightStep]
      have hle : ¬ ((n : ℚ) / 2 + 1 / 2 > 50) := by
        rw [not_lt]
        have : (n : ℚ) ≤ 99 := by exact_mod_cast Nat.le_of_succ_le_succ h
        linarith
      simp only [hle, if_neg, if_false]
      push_cast
      ring

/-- A single tick never leaves a counter value above 50 (the reset runs before
the value is stored, so post-tick values are at most 50). -/
theorem weightStep_le (w : ℚ) : weightStep w ≤ 50 := by
  rw [weightStep]
  split
  · norm_num
  · linarith [not_lt.mp (by assumption : ¬ (w + 1 / 2 > 50))]

/-- No emitted weight value ever exceeds 50; in particular 50.5 is never
emitted. -/
theorem weightAt_le (n : Nat) : weightAt n ≤ 50 := by
  cases n with
  | zero => norm_num [weightAt]
  | succ m => exact weightStep_le (weightAt m)

/-- The tick after the counter reaches 50.0 emits 0.0. -/
theorem weightAt_101 : weightAt 101 = 0 := by
  have h100 : weightAt 100 = 50 := by
    rw [weightAt_closed_form 100 (by norm_num)]; norm_num
  show weightStep (weightAt 100) = 0
  rw [h100, weightStep]
  norm_num

/-!  Claim theorems. -/

/-- Claim C1, counterexample: the claim says every Data-Point notification
serialized for the wire is exactly 14 bytes, but the telemetry sample packet
built and notified by `custom_task` is a 10-byte buffer. -/
theorem C1_counterexample :
    (telemetryPacket 0 0).length = 10 ∧ ¬ (telemetryPacket 0 0).length = 14 := by
  decide

/-- Claim C1, amended: every frame the `datapoint.rs` codec produces
(`DataOpcode::to_bytes`, whenever it does not panic) is exactly 14 bytes —
1 opcode byte, 1 length byte, 12 payload bytes — with all payload bytes past
the declared length equal to zero; the notifications actually serialized for
the wire by `main.rs` (e.g. the telemetry sample of `custom_task`), however,
are 10-byte buffers, not 14-byte frames. -/
theorem C1_frame_size :
    (∀ (op : DataOpcode) (frame : List Nat), op.to_bytes = some frame →
        frame.length = 14 ∧ frame.drop (2 + op.length) = List.replicate (12 - op.length) 0)
    ∧ (∀ weightBits timestampUs, (telemetryPacket weightBits timestampUs).length = 10) := by
  constructor
  · intro op frame h
    obtain ⟨v, hv, hframe⟩ := Option.map_eq_some'.mp h
    have hcons := DataOpcode.to_bytes_eq_cons hv
    rw [h] at hcons
    have hfv : frame = op.opcode :: op.length :: v := Option.some.inj hcons
    subst hfv
    refine ⟨?_, ?_⟩
    · simp [DataOpcode.value_length hv]
    · rw [Nat.add_comm]
      show List.drop op.length v = _
      exact DataOpcode.value_drop_length hv
  · intro w t
    simp [telemetryPacket, copyFromSlice, u32ToLeBytes]

/-- Claim C1, witness: the amended theorem evaluated on the `ProgressorId 42`
response and a concrete telemetry packet. -/
theorem C1_frame_size_witness :
    DataOpcode.to_bytes (DataOpcode.ProgressorId 42) =
      some [0, 1, 42, 0, 0, 0, 0, 0, 0, 0, 0, 0, 0, 0]
    ∧ ([0, 1, 42, 0, 0, 0, 0, 0, 0, 0, 0, 0, 0, 0] : List Nat).length = 14
    ∧ ([0, 1, 42, 0, 0, 0, 0, 0, 0, 0, 0, 0, 0, 0] : List Nat).drop
        (2 + DataOpcode.length (DataOpcode.ProgressorId 42)) =
        List.replicate (12 - DataOpcode.length (DataOpcode.ProgressorId 42)) 0
    ∧ (telemetryPacket 1 2).length = 10 :=
  ⟨by decide,
    (C1_frame_size.1 (DataOpcode.ProgressorId 42)
      [0, 1, 42, 0, 0, 0, 0, 0, 0, 0, 0, 0, 0, 0] (by decide)).1,
    (C1_frame_size.1 (DataOpcode.ProgressorId 42)
      [0, 1, 42, 0, 0, 0, 0, 0, 0, 0, 0, 0, 0, 0] (by decide)).2,
    C1_frame_size.2 1 2⟩

/-- Claim C2, counterexample: on a `[0x70]` Control-Point write the event
loop notifies exactly the byte sequence `[0, 1, 42, 0, 0, 0, 0, 0, 0, 0]`,
but that buffer is 10 bytes, not the 14-byte frame the claim asserts. -/
theorem C2_counterexample :
    handleControlWrite [0x70] = some [0, 1, 42, 0, 0, 0, 0, 0, 0, 0]
    ∧ (handleControlWrite [0x70]).map List.length ≠ some 14 := by
  decide

/-- Claim C2, amended: for every Control-Point write whose raw payload is the
single byte `0x70`, the event loop emits exactly one Data-Point notification,
namely the 10-byte buffer `[0, 1, 42, 0, 0, 0, 0, 0, 0, 0]` (opcode 0 at
offset 0, length 1 at offset 1, 42 at offset 2, zero elsewhere), and the
connection stays in its event loop (no disconnect). -/
theorem C2_id_query_response (controlHandle dataHandle : Nat) :
    gattEventStep controlHandle dataHandle (.Gatt (.WriteEvt controlHandle [0x70])) =
      { notification := some [0, 1, 42, 0, 0, 0, 0, 0, 0, 0], loopBreak := none } := by
  simp [gattEventStep]
  decide

/-- Claim C3: the command decoder is total and pure — an empty input decodes
to `Invalid`; the first byte decides the result through the fixed table; every
unmapped first byte decodes to `Unknown` of that byte. -/
theorem C3_decoder_total :
    ControlOpcode.from_bytes [] = .Invalid
    ∧ (∀ rest, ControlOpcode.from_bytes (0x00 :: rest) = .Tare)
    ∧ (∀ rest, ControlOpcode.from_bytes (0x65 :: rest) = .StartMeasurement)
    ∧ (∀ rest, ControlOpcode.from_bytes (0x66 :: rest) = .StopMeasurement)
    ∧ (∀ rest, ControlOpcode.from_bytes (0x03 :: rest) = .StartPeakRfdMeasurement)
    ∧ (∀ rest, ControlOpcode.from_bytes (0x04 :: rest) = .StartPeakRfdMeasurementSeries)
    ∧ (∀ rest, ControlOpcode.from_bytes (0x05 :: rest) = .GetAppVersion)
    ∧ (∀ rest, ControlOpcode.from_bytes (0x06 :: rest) = .GetErrorInfo)
    ∧ (∀ rest, ControlOpcode.from_bytes (0x07 :: rest) = .ClearErrorInfo)
    ∧ (∀ rest, ControlOpcode.from_bytes (0x08 :: rest) = .Shutdown)
    ∧ (∀ rest, ControlOpcode.from_bytes (0x09 :: rest) = .SampleBattery)
    ∧ (∀ rest, ControlOpcode.from_bytes (0x70 :: rest) = .GetProgressorID)
    ∧ (∀ b rest,
        b ∉ ([0x00, 0x65, 0x66, 0x03, 0x04, 0x05, 0x06, 0x07, 0x08, 0x09, 0x70] : List Nat) →
        ControlOpcode.from_bytes (b :: rest) = .Unknown b) := by
  refine ⟨rfl, fun _ => rfl, fun _ => rfl, fun _ => rfl, fun _ => rfl, fun _ => rfl,
    fun _ => rfl, fun _ => rfl, fun _ => rfl, fun _ => rfl, fun _ => rfl, fun _ => rfl, ?_⟩
  intro b rest h
  simp only [List.mem_cons, not_or] at h
  unfold ControlOpcode.from_bytes
  split
  all_goals simp_all

/-- Claim C3, witness: the fallback arm of the decoder evaluated on the
unmapped byte `0x10`. -/
theorem C3_decoder_total_witness :
    (0x10 : Nat) ∉ ([0x00, 0x65, 0x66, 0x03, 0x04, 0x05, 0x06, 0x07, 0x08, 0x09, 0x70] : List Nat)
    ∧ ControlOpcode.from_bytes [0x10, 0x07] = .Unknown 0x10 :=
  ⟨by decide,
    C3_decoder_total.2.2.2.2.2.2.2.2.2.2.2.2 0x10 [0x07] (by decide)⟩

/-- Claim C4, counterexample: after the counter emits 50.0 at tick 100, the
very next emitted value is 0.0 — the sequence stops increasing even though no
emitted value ever exceeded 50.0, and 50.5 (the value the claim says is
produced at tick 101) is not emitted there. -/
theorem C4_counterexample :
    weightAt 100 = 50
    ∧ weightAt 101 = 0
    ∧ ¬ weightAt 100 < weightAt 101
    ∧ ¬ (50 : ℚ) < weightAt 100
    ∧ weightAt 101 ≠ 101 / 2 := by
  have h100 : weightAt 100 = 50 := by
    rw [weightAt_closed_form 100 (by norm_num)]; norm_num
  refine ⟨h100, weightAt_101, ?_, ?_, ?_⟩
  · rw [h100, weightAt_101]; norm_num
  · rw [h100]; norm_num
  · rw [weightAt_101]; norm_num

/-- Claim C4, amended: the emitted weight sequence is exactly `k * 0.5` for
ticks 1..100, hence strictly increasing up to 50.0; on the next tick the
internal counter reaches 50.5, which exceeds 50.0 and is reset to 0.0 before
the value is emitted, so the tick after 50.0 emits 0.0 and no emitted value
(in particular never 50.5) exceeds 50.0. -/
theorem C4_weight_wrap :
    (∀ k, 1 ≤ k → k ≤ 100 → weightAt k = (k : ℚ) / 2)
    ∧ (∀ k, 1 ≤ k → k < 100 → weightAt k < weightAt (k + 1))
    ∧ weightAt 100 = 50
    ∧ weightAt 100 + 1 / 2 > 50
    ∧ weightStep (weightAt 100) = 0
    ∧ weightAt 101 = 0
    ∧ (∀ n, weightAt n ≤ 50) := by
  have h100 : weightAt 100 = 50 := by
    rw [weightAt_closed_form 100 (by norm_num)]; norm_num
  refine ⟨fun k _ hk => weightAt_closed_form k hk, ?_, h100, ?_, ?_, weightAt_101, weightAt_le⟩
  · intro k _ hk
    rw [weightAt_closed_form k (by omega), weightAt_closed_form (k + 1) (by omega)]
    have : (k : ℚ) < (k : ℚ) + 1 := by linarith
    push_cast
    linarith
  · rw [h100]; norm_num
  · show weightAt 101 = 0
    exact weightAt_101

/-- Claim C4, witness: the amended theorem evaluated at ticks 3 and 7. -/
theorem C4_weight_wrap_witness :
    weightAt 3 = (3 : ℚ) / 2 ∧ weightAt 3 < weightAt 4 ∧ weightAt 7 ≤ 50 :=
  ⟨C4_weight_wrap.1 3 (by norm_num) (by norm_num),
    C4_weight_wrap.2.1 3 (by norm_num) (by norm_num),
    C4_weight_wrap.2.2.2.2.2.2 7⟩

/-- Claim C5: the frame built from `Weight(w, t)` has opcode byte `0x01`,
length byte `8`, bytes [2..6) the little-endian encoding of the weight's
32-bit pattern and bytes [6..10) the little-endian encoding of the timestamp,
and both fields decode back to their original values. -/
theorem C5_weight_roundtrip (w t : Nat) (hw : w < 2 ^ 32) (ht : t < 2 ^ 32) :
    ∃ frame : List Nat,
      DataOpcode.to_bytes (DataOpcode.Weight w t) = some frame
      ∧ frame.length = 14
      ∧ frame.getD 0 255 = 0x01
      ∧ frame.getD 1 255 = 0x08
      ∧ (frame.drop 2).take 4 = u32ToLeBytes w
      ∧ leBytesToU32 ((frame.drop 2).take 4) = w
      ∧ (frame.drop 6).take 4 = u32ToLeBytes t
      ∧ leBytesToU32 ((frame.drop 6).take 4) = t := by
  have hv := DataOpcode.value_weight w t
  have hcons := DataOpcode.to_bytes_eq_cons hv
  refine ⟨0x01 :: 8 :: (u32ToLeBytes w ++ u32ToLeBytes t ++ List.replicate 4 0), hcons,
    ?_, rfl, rfl, ?_, ?_, ?_, ?_⟩
  · simp [u32ToLeBytes]
  · simp [u32ToLeBytes]
  · rw [show ((0x01 :: 8 :: (u32ToLeBytes w ++ u32ToLeBytes t ++
        List.replicate 4 0)).drop 2).take 4 = u32ToLeBytes w by simp [u32ToLeBytes]]
    rw [u32_le_roundtrip]
    omega
  · simp [u32ToLeBytes]
  · rw [show ((0x01 :: 8 :: (u32ToLeBytes w ++ u32ToLeBytes t ++
        List.replicate 4 0)).drop 6).take 4 = u32ToLeBytes t by simp [u32ToLeBytes]]
    rw [u32_le_roundtrip]
    omega

/-- Claim C5, witness: the round-trip theorem evaluated at the weight bit
pattern 3 and timestamp 4. -/
theorem C5_weight_roundtrip_witness :
    ((3 : Nat) < 2 ^ 32 ∧ (4 : Nat) < 2 ^ 32)
    ∧ ∃ frame : List Nat,
        DataOpcode.to_bytes (DataOpcode.Weight 3 4) = some frame
        ∧ frame.length = 14
        ∧ frame.getD 0 255 = 0x01
        ∧ frame.getD 1 255 = 0x08
        ∧ (frame.drop 2).take 4 = u32ToLeBytes 3
        ∧ leBytesToU32 ((frame.drop 2).take 4) = 3
        ∧ (frame.drop 6).take 4 = u32ToLeBytes 4
        ∧ leBytesToU32 ((frame.drop 6).take 4) = 4 :=
  ⟨⟨by norm_num, by norm_num⟩, C5_weight_roundtrip 3 4 (by norm_num) (by norm_num)⟩

/-- Claim C6, counterexample: an `AppVersion` byte string of 13 bytes does
not get truncated — serializing it panics (the out-of-bounds slice write,
modelled as `none`), so encoding is not total on oversized app versions. -/
theorem C6_counterexample :
    DataOpcode.to_bytes (DataOpcode.AppVersion (List.replicate 13 1)) = none := by
  decide

/-- Claim C6, amended: `DataPoint::from_parts` never fails — it silently
truncates any oversized payload to its first 12 bytes, zero-pads, and always
yields a well-formed 14-byte frame; but the `DataOpcode` path does not
truncate: an `AppVersion` byte string longer than 12 bytes makes the encoder
panic (modelled as `none`) instead of producing a frame. -/
theorem C6_truncation :
    (∀ opcode length payload,
        ((DataPoint.from_parts opcode length payload).to_bytes).length = 14)
    ∧ (∀ opcode length payload,
        (DataPoint.from_parts opcode length payload).value =
          payload.take 12 ++ List.replicate (12 - min payload.length 12) 0)
    ∧ (∀ version : List Nat, 12 < version.length →
        DataOpcode.to_bytes (DataOpcode.AppVersion version) = none) := by
  have hval : ∀ (o l : Nat) (payload : List Nat),
      (DataPoint.from_parts o l payload).value =
        payload.take 12 ++ List.replicate (12 - min payload.length 12) 0 := by
    intro o l payload
    simp only [DataPoint.from_parts, copyFromSlice, DATA_PAYLOAD_SIZE, List.take_zero,
      List.nil_append, Nat.zero_add]
    have htake : payload.take (min payload.length 12) = payload.take 12 := by
      rcases le_or_lt payload.length 12 with h | h
      · rw [Nat.min_eq_left h, List.take_length, List.take_of_length_le h]
      · rw [Nat.min_eq_right (le_of_lt h)]
    rw [htake]
    congr 1
    rw [List.drop_replicate]
    congr 1
    simp only [List.length_take]
    omega
  refine ⟨?_, hval, ?_⟩
  · intro o l payload
    have hlen : (DataPoint.from_parts o l payload).value.length = 12 := by
      rw [hval]
      simp [List.length_take]
      omega
    simp [DataPoint.to_bytes, copyFromSlice, DATA_PAYLOAD_SIZE, hlen]
  · intro version h
    simp [DataOpcode.to_bytes, DataOpcode.value, DATA_PAYLOAD_SIZE]
    omega

/-- Claim C6, witness: the amended theorem evaluated on a 13-byte payload
(truncated by `from_parts`, rejected by the `AppVersion` path). -/
theorem C6_truncation_witness :
    ((DataPoint.from_parts 0 13 (List.replicate 13 2)).to_bytes).length = 14
    ∧ (DataPoint.from_parts 0 13 (List.replicate 13 2)).value =
        (List.replicate 13 2).take 12 ++
          List.replicate (12 - min (List.replicate 13 2).length 12) 0
    ∧ (12 < (List.replicate 13 2).length
        ∧ DataOpcode.to_bytes (DataOpcode.AppVersion (List.replicate 13 2)) = none) :=
  ⟨C6_truncation.1 0 13 (List.replicate 13 2),
    C6_truncation.2.1 0 13 (List.replicate 13 2),
    by decide, C6_truncation.2.2 (List.replicate 13 2) (by decide)⟩

/-- Claim C7: any non-empty Control-Point write other than the single byte
`0x70` (unknown opcodes and multi-byte payloads beginning with `0x70`
included) triggers no Data-Point notification and does not end the event
loop — the connection stays Connected. -/
theorem C7_unknown_inert (controlHandle dataHandle : Nat) (data : List Nat)
    (h1 : data ≠ []) (h2 : data ≠ [0x70]) :
    gattEventStep controlHandle dataHandle (.Gatt (.WriteEvt controlHandle data)) =
      { notification := none, loopBreak := none } := by
  simp only [gattEventStep, if_pos rfl]
  have hn : handleControlWrite data = none := by
    rw [handleControlWrite, if_neg]
    rintro ⟨hl, hh⟩
    apply h2
    cases data with
    | nil => simp at hl
    | cons a tl => simp_all
  simp [hn]

/-- Claim C7, witness: a write of the unknown single byte `0x05` and a
two-byte write starting with `0x70` are both inert. -/
theorem C7_unknown_inert_witness :
    (([0x05] : List Nat) ≠ [] ∧ ([0x05] : List Nat) ≠ [0x70]
      ∧ gattEventStep 4 5 (.Gatt (.WriteEvt 4 [0x05])) =
          { notification := none, loopBreak := none })
    ∧ (([0x70, 0x01] : List Nat) ≠ [] ∧ ([0x70, 0x01] : List Nat) ≠ [0x70]
      ∧ gattEventStep 4 5 (.Gatt (.WriteEvt 4 [0x70, 0x01])) =
          { notification := none, loopBreak := none }) :=
  ⟨⟨by decide, by decide, C7_unknown_inert 4 5 [0x05] (by decide) (by decide)⟩,
    ⟨by decide, by decide, C7_unknown_inert 4 5 [0x70, 0x01] (by decide) (by decide)⟩⟩

/-- Claim C8: the connection supervisor — a host-level advertising error
aborts (and the abort is permanent, no retry); a successful connection runs
the event-loop/telemetry pair and, whichever task finishes first, the next
iteration is back in Advertising with nothing in between; with no errors the
loop stays in Advertising forever (never terminates). -/
theorem C8_supervisor (outcomes : Nat → AdvOutcome) (firsts : Nat → TaskFirst) :
    ((∀ n, outcomes n = .Ok) → ∀ n, supervisorState outcomes firsts n = .Advertising)
    ∧ (∀ n, supervisorState outcomes firsts n = .Advertising → outcomes n = .Err →
        supervisorState outcomes firsts (n + 1) = .Aborted)
    ∧ (∀ n, supervisorState outcomes firsts n = .Aborted →
        supervisorState outcomes firsts (n + 1) = .Aborted)
    ∧ (∀ first, superviseIteration .Ok first = .Advertising) := by
  refine ⟨?_, ?_, ?_, ?_⟩
  · intro h n
    induction n with
    | zero => rfl
    | succ m ih =>
        rw [supervisorState, ih, h m]
        cases firsts m <;> rfl
  · intro n h he
    rw [supervisorState, h, he]
    rfl
  · intro n h
    rw [supervisorState, h]
  · intro first
    cases first <;> rfl

/-- Claim C8, witness: an error-free run is still advertising at iteration 3;
an error on the first advertise attempt aborts at iteration 1. -/
theorem C8_supervisor_witness :
    supervisorState (fun _ => .Ok) (fun _ => .EventLoopFirst) 3 = .Advertising
    ∧ supervisorState (fun n => if n = 0 then .Err else .Ok) (fun _ => .TelemetryFirst) 1 =
        .Aborted :=
  ⟨(C8_supervisor (fun _ => .Ok) (fun _ => .EventLoopFirst)).1 (fun _ => rfl) 3,
    (C8_supervisor (fun n => if n = 0 then .Err else .Ok) (fun _ => .TelemetryFirst)).2.1
      0 rfl rfl⟩

/-- Claim C9: command decoding depends only on the first byte — for any two
non-empty writes with equal first byte, `ControlOpcode::from_bytes` returns
the same variant (trailing bytes never interfere). -/
theorem C9_first_byte_only (b : Nat) (rest1 rest2 : List Nat) :
    ControlOpcode.from_bytes (b :: rest1) = ControlOpcode.from_bytes (b :: rest2) := rfl

/-- Claim C10: the two serialization paths agree — for every `DataOpcode`
(with an `AppVersion` byte string of at most 12 bytes, so that serialization
does not panic), `DataOpcode::to_bytes` yields exactly the same 14-byte frame
as converting through `From<DataOpcode> for DataPoint` and then calling
`DataPoint::to_bytes`. -/
theorem C10_paths_agree (op : DataOpcode)
    (h : ∀ version, op = DataOpcode.AppVersion version → version.length ≤ 12) :
    ∃ frame : List Nat,
      DataOpcode.to_bytes op = some frame
      ∧ (DataPoint.fromOpcode op).map DataPoint.to_bytes = some frame
      ∧ frame.length = 14 := by
  have hsome : ∃ v, op.value = some v := by
    cases op with
    | AppVersion version =>
        exact ⟨_, DataOpcode.value_appVersion version (h version rfl)⟩
    | BatteryVoltage x => exact ⟨_, rfl⟩
    | Weight w t => exact ⟨_, rfl⟩
    | LowPowerWarning => exact ⟨_, rfl⟩
    | ProgressorId id => exact ⟨_, rfl⟩
  obtain ⟨v, hv⟩ := hsome
  have hlen := DataOpcode.value_length hv
  refine ⟨op.opcode :: op.length :: v, DataOpcode.to_bytes_eq_cons hv, ?_, by simp [hlen]⟩
  simp only [DataPoint.fromOpcode, hv, Option.map_some', Option.map_map]
  rw [DataPoint.to_bytes_cons _ _ _ hlen]

/-- Claim C10, witness: the two paths evaluated on `AppVersion [7]`. -/
theorem C10_paths_agree_witness :
    (∀ version, DataOpcode.AppVersion [7] = DataOpcode.AppVersion version →
        version.length ≤ 12)
    ∧ ∃ frame : List Nat,
        DataOpcode.to_bytes (DataOpcode.AppVersion [7]) = some frame
        ∧ (DataPoint.fromOpcode (DataOpcode.AppVersion [7])).map DataPoint.to_bytes = some frame
        ∧ frame.length = 14 :=
  ⟨fun version hv => by injection hv with hv2; rw [← hv2]; decide,
    C10_paths_agree (DataOpcode.AppVersion [7])
      (fun version hv => by injection hv with hv2; rw [← hv2]; decide)⟩
